import Mathlib

/-!
Shallow embedding of the transcript logic of a Streamlit finance-agent
front end (`utils.py` and `app.py`): message appending (`add_message`),
markdown export (`export_chat_history`), transcript reconciliation from
persisted session runs and session switching (`session_selector_widget`),
the autoload-suppression flag (`prevent_session_autoload`), and the
sanitizer regex pipeline (`sanitize_agent_text`).  Python `None` is
modelled as `Option.none`; string truthiness is explicit.
-/

/-- A tool-call entry as stored on a message: a dict whose optional `name`
key holds the tool name (read by `export_chat_history` in `utils.py`). -/
structure ToolCall where
  name : Option String
deriving DecidableEq, Repr

/-- A transcript message as built by `add_message` in `utils.py`: the dict
with keys `role`, `content`, `tool_calls`, plus the optional `image` and
`audio_bytes` keys that are attached conditionally. -/
structure Message where
  role : Option String
  content : Option String
  tool_calls : Option (List ToolCall)
  image : Option String
  audio_bytes : Option (List Nat)
deriving DecidableEq, Repr

/-- Python `f"{x}"` rendering of an optional string; `None` prints as
`"None"`. -/
def pyStr : Option String → String
  | none => "None"
  | some s => s

/-- `add_message` from `utils.py`: initialises the message list when the
session-state key is missing (`none`), then appends exactly one message
dict.  The `image` key is attached only when the image argument is truthy;
the `audio_bytes` key only when that argument is not `None`.  There is no
guard on `content`. -/
def add_message (role content : Option String) (tool_calls : Option (List ToolCall))
    (image : Option String) (audio_bytes : Option (List Nat))
    (st : Option (List Message)) : List Message :=
  (match st with | some l => l | none => []) ++
    [{ role := role, content := content, tool_calls := tool_calls,
       image := if image = none ∨ image = some "" then none else image,
       audio_bytes := audio_bytes }]

/-- Role heading chosen by `export_chat_history` (`utils.py` line 71):
the assistant heading is used exactly when the stored role is the literal
string `"agent"`. -/
def roleLabel (role : Option String) : String :=
  if role = some "agent" then "🤖 Assistant" else "👤 User"

/-- Tool name shown by `export_chat_history`: the dict's `name` key with
default `"Unknown Tool"`. -/
def toolName (t : ToolCall) : String :=
  match t.name with
  | some n => n
  | none => "Unknown Tool"

/-- Tools section of one exported message, emitted only when the stored
`tool_calls` value is truthy (a non-empty list). -/
def toolsSection (tc : Option (List ToolCall)) : String :=
  match tc with
  | some ts =>
    if ts = [] then ""
    else "#### Tools Used:\n" ++ (ts.map (fun t => "- " ++ toolName t ++ "\n")).foldl (· ++ ·) ""
  | none => ""

/-- One message section of the exported document. -/
def renderMessage (m : Message) : String :=
  "### " ++ roleLabel m.role ++ "\n" ++ pyStr m.content ++ "\n\n" ++ toolsSection m.tool_calls

/-- `export_chat_history` from `utils.py`: returns `""` when the
session-state `messages` key is absent, otherwise the fixed heading
followed by one section per message, accumulated left to right. -/
def exportChatHistory (st : Option (List Message)) : String :=
  match st with
  | some msgs => msgs.foldl (fun acc m => acc ++ renderMessage m) "# Finance Agent - Chat History\n\n"
  | none => ""

/-- The assistant-side append performed in `app.py` after a streamed
response: `add_message("assistant", final_text, tools, audio_bytes=None)`. -/
def appendAssistant (text : String) (tools : Option (List ToolCall))
    (st : Option (List Message)) : List Message :=
  add_message (some "assistant") (some text) tools none none st

/-- Arguments of one `add_message` call. -/
structure CallArgs where
  role : Option String
  content : Option String
  tool_calls : Option (List ToolCall)
  image : Option String
  audio_bytes : Option (List Nat)
deriving DecidableEq, Repr

/-- Replay a sequence of `add_message` calls against a transcript. -/
def applyCalls : List CallArgs → List Message → List Message
  | [], st => st
  | c :: cs, st =>
    applyCalls cs (add_message c.role c.content c.tool_calls c.image c.audio_bytes (some st))

/-- A message dict inside a multi-message run (`run["messages"]` in
`session_selector_widget`).  `tool_calls_field` is `none` when the
`tool_calls` key is absent, and `some v` when the key is present with
value `v` (which may itself be `None`).  `metricsTruthy` models
`"metrics" in msg and msg.get("metrics")`. -/
structure PMsg where
  role : Option String
  content : Option String
  tool_calls_field : Option (Option (List ToolCall))
  metricsTruthy : Bool
deriving DecidableEq, Repr

/-- An element of `run["messages"]`: either a well-formed message dict, or
a value on which `msg.get(...)` raises (e.g. a non-dict). -/
inductive MsgItem where
  | good (m : PMsg) : MsgItem
  | bad : MsgItem
deriving DecidableEq, Repr

/-- The `messages` field of a run: absent, an iterable of items, or a
value whose iteration raises (e.g. a number). -/
inductive MessagesField where
  | absent : MessagesField
  | items (ms : List MsgItem) : MessagesField
  | notIterable : MessagesField
deriving DecidableEq, Repr

/-- The `message` field of a run, distinguishing the cases tested by
`"message" in run and isinstance(run["message"], dict) and "content" in
run["message"]`. -/
inductive MessageField where
  | absent : MessageField
  | notDict : MessageField
  | dictNoContent : MessageField
  | dictContent (v : Option String) : MessageField
deriving DecidableEq, Repr

/-- A persisted run as iterated by `session_selector_widget`.  `content`
models `run.get("content")` (`none` for an absent key or `None` value);
`tools` models `run.get("tools")`. -/
structure Run where
  messages : MessagesField
  message : MessageField
  content : Option String
  tools : Option (List ToolCall)
deriving DecidableEq, Repr

/-- A persisted session as consumed by the widget: `runs` is `some rs`
exactly when `session.memory` is truthy and has a `"runs"` key. -/
structure SessionRecord where
  runs : Option (List Run)
deriving DecidableEq, Repr

/-- Deduplication key, Python `f"{msg_role}:{msg_content}"`. -/
def msgKey (role content : Option String) : String :=
  pyStr role ++ ":" ++ pyStr content

/-- Tool-call attachment for an assistant message in the multi-message
branch: the message's own `tool_calls` key when present, else the run's
`tools` when the message carries truthy `metrics` and the run's `tools`
value is itself truthy. -/
def mkToolCalls (rtools : Option (List ToolCall)) (m : PMsg) : Option (List ToolCall) :=
  match m.tool_calls_field with
  | some v => v
  | none =>
    if m.metricsTruthy then
      match rtools with
      | some ts => if ts = [] then none else some ts
      | none => none
    else none

/-- The inner loop over `run["messages"]`: skip falsy content and `system`
roles, deduplicate on `msgKey`, append via `add_message`.  A `bad` item
raises, carrying the messages appended so far in the `error` branch. -/
def processItems (rtools : Option (List ToolCall)) :
    List MsgItem → List String → List Message →
    Except (List Message) (List String × List Message)
  | [], seen, acc => Except.ok (seen, acc)
  | MsgItem.bad :: _, _, acc => Except.error acc
  | MsgItem.good m :: rest, seen, acc =>
    if m.content = none ∨ m.content = some "" ∨ m.role = some "system" then
      processItems rtools rest seen acc
    else if msgKey m.role m.content ∈ seen then
      processItems rtools rest seen acc
    else
      processItems rtools rest (msgKey m.role m.content :: seen)
        (add_message m.role m.content
          (if m.role = some "assistant" then mkToolCalls rtools m else none)
          none none (some acc))

/-- The single-turn branch: append `run["message"]["content"]` as a user
message when its key is unseen (no truthiness check on the value), then,
when `run.get("content")` is truthy, append it as an assistant message
carrying `run.get("tools")`. -/
def processSingle (v : Option String) (rcontent : Option String)
    (rtools : Option (List ToolCall)) (seen : List String) (acc : List Message) :
    List String × List Message :=
  let k1 := "user:" ++ pyStr v
  let p1 :=
    if k1 ∈ seen then (seen, acc)
    else (k1 :: seen, add_message (some "user") v none none none (some acc))
  match rcontent with
  | some c =>
    if c = "" then p1
    else
      let k2 := "assistant:" ++ c
      if k2 ∈ p1.1 then p1
      else (k2 :: p1.1, add_message (some "assistant") (some c) rtools none none (some p1.2))
  | none => p1

/-- Processing of one run: the multi-message branch when the `messages`
key is present, else the single-turn branch when `run["message"]` is a
dict with a `content` key, else nothing.  `error` models a raised
exception, carrying the messages appended before the raise. -/
def processRun (r : Run) (seen : List String) (acc : List Message) :
    Except (List Message) (List String × List Message) :=
  match r.messages with
  | MessagesField.items ms => processItems r.tools ms seen acc
  | MessagesField.notIterable => Except.error acc
  | MessagesField.absent =>
    match r.message with
    | MessageField.dictContent v => Except.ok (processSingle v r.content r.tools seen acc)
    | _ => Except.ok (seen, acc)

/-- The loop over `runs` inside the widget's single `try` block: the first
raised exception aborts the whole loop (it is caught outside the loop),
keeping the messages appended so far.  Returns the final seen set, the
transcript, and whether an exception was caught. -/
def processRunsAux : List Run → List String → List Message →
    List String × List Message × Bool
  | [], seen, acc => (seen, acc, false)
  | r :: rs, seen, acc =>
    match processRun r seen acc with
    | Except.ok (seen', acc') => processRunsAux rs seen' acc'
    | Except.error acc' => (seen, acc', true)

/-- Transcript and error flag produced by iterating the given runs. -/
def processRuns (runs : List Run) (seen : List String) (acc : List Message) :
    List Message × Bool :=
  ((processRunsAux runs seen acc).2.1, (processRunsAux runs seen acc).2.2)

/-- The reconciliation step of `session_selector_widget`: the transcript is
first replaced by `[]`, and, when the record's memory has runs, rebuilt
from them with a fresh `seen_messages` set.  The previous transcript is
discarded entirely. -/
def reconcileFromSession (rec : SessionRecord) (transcript : List Message) : List Message :=
  match rec.runs with
  | some runs => (processRuns runs [] []).1
  | none => []

/-- Whether processing a run raises: a non-iterable `messages` value, or a
`bad` element among its items. -/
def runRaises (r : Run) : Bool :=
  match r.messages with
  | MessagesField.notIterable => true
  | MessagesField.items ms => ms.any (fun it => match it with | MsgItem.bad => true | _ => false)
  | MessagesField.absent => false

/-- Example runs used to exercise the reconciliation loop. -/
def exRun1 : Run :=
  { messages := MessagesField.items
      [MsgItem.good { role := some "user", content := some "hi",
                      tool_calls_field := none, metricsTruthy := false }],
    message := MessageField.absent, content := none, tools := none }

def exRunBad : Run :=
  { messages := MessagesField.notIterable,
    message := MessageField.absent, content := none, tools := none }

def exRun2 : Run :=
  { messages := MessagesField.items
      [MsgItem.good { role := some "user", content := some "yo",
                      tool_calls_field := none, metricsTruthy := false }],
    message := MessageField.absent, content := none, tools := none }

/-- The observable session state of the app: the agent handle (abstracted
to an id), `agentic_rag_agent_session_id`, `prevent_session_autoload`, and
the `messages` transcript. -/
structure AppState where
  agent : Option Nat
  session_id : Option String
  prevent_autoload : Bool
  messages : List Message
deriving DecidableEq, Repr

/-- The session switch of `session_selector_widget`: a no-op when the
selected id equals the current one; otherwise, inside one `try` block,
construct a new agent (`ctor`), commit agent, session id, cleared autoload
flag and an emptied transcript, then rebuild the transcript from the
matching record's runs.  A raise anywhere is caught and surfaced as an
error (the returned flag); whatever was assigned before the raise stays
committed. -/
def selectSession (st : AppState) (selected : String) (ctor : Except Unit Nat)
    (record : Option SessionRecord) : AppState × Bool :=
  if st.session_id = some selected then (st, false)
  else
    match ctor with
    | Except.error _ => (st, true)
    | Except.ok a =>
      let st1 : AppState :=
        { agent := some a, session_id := some selected,
          prevent_autoload := false, messages := [] }
      match record with
      | none => (st1, false)
      | some rec =>
        match rec.runs with
        | none => (st1, false)
        | some runs =>
          ({ st1 with messages := (processRuns runs [] []).1 }, (processRuns runs [] []).2)

/-- A persisted run as read back by `app.py`'s autoload loop, where runs
are objects: `_run.message` carries (role, content) when present and not
`None`; `_run.response` carries (content, tools). -/
structure AppRun where
  message : Option (Option String × Option String)
  response : Option (Option String × Option (List ToolCall))
deriving DecidableEq, Repr

/-- Messages contributed by one autoloaded run (`app.py` lines 185-191):
the run's message, then its response as an assistant message. -/
def appRunMsgs (r : AppRun) : List Message :=
  (match r.message with
   | some (role, content) =>
     [{ role := role, content := content, tool_calls := none,
        image := none, audio_bytes := none }]
   | none => []) ++
  (match r.response with
   | some (content, tools) =>
     [{ role := some "assistant", content := content, tool_calls := tools,
        image := none, audio_bytes := none }]
   | none => [])

/-- Messages contributed by the whole autoload loop, in run order. -/
def appRunsMsgs (runs : List AppRun) : List Message :=
  (runs.map appRunMsgs).flatten

/-- Primitive state-changing steps performed by the UI code paths.
`populate` is the only way persisted runs enter the transcript. -/
inductive UIAction where
  | setAgent (a : Option Nat) : UIAction
  | setSession (sid : Option String) : UIAction
  | setFlag (b : Bool) : UIAction
  | clearMessages : UIAction
  | populate (msgs : List Message) : UIAction
  | appendLive (m : Message) : UIAction
deriving DecidableEq, Repr

def applyAction (s : AppState) : UIAction → AppState
  | UIAction.setAgent a => { s with agent := a }
  | UIAction.setSession sid => { s with session_id := sid }
  | UIAction.setFlag b => { s with prevent_autoload := b }
  | UIAction.clearMessages => { s with messages := [] }
  | UIAction.populate msgs => { s with messages := s.messages ++ msgs }
  | UIAction.appendLive m => { s with messages := s.messages ++ [m] }

def applyTraceL (s : AppState) (acts : List UIAction) : AppState :=
  acts.foldl applyAction s

/-- User-observable events of one render cycle of the app. -/
inductive Event where
  | reset : Event
  | render (userTruthy : Bool) (memRuns : Option (List AppRun)) : Event
  | select (selected : String) (ctor : Except Unit Nat)
      (record : Option SessionRecord) : Event
  | lazyCreate (sid : String) : Event
  | live (m : Message) : Event

/-- The sequence of primitive actions each event performs from state `s`,
read off the corresponding code path: `restart_agent` for `reset`; the
autoload section of `main` for `render` (runs are pulled only with a
truthy user id, a session id, an unset flag and a present memory, and
copied only into an empty transcript with the flag still unset); the
session switch of `session_selector_widget` for `select`; the lazy
`load_session` on first message for `lazyCreate`. -/
def eventTrace : Event → AppState → List UIAction
  | Event.reset, _ =>
    [UIAction.setAgent none, UIAction.setSession none, UIAction.clearMessages,
     UIAction.setFlag true]
  | Event.render u memRuns, s =>
    let agent_runs :=
      if u = true ∧ s.session_id ≠ none ∧ s.prevent_autoload = false ∧ memRuns ≠ none
      then memRuns.getD [] else []
    if s.messages = [] ∧ agent_runs ≠ [] ∧ s.prevent_autoload = false
    then [UIAction.populate (appRunsMsgs agent_runs)] else []
  | Event.select sel ctor record, s =>
    if s.session_id = some sel then []
    else
      match ctor with
      | Except.error _ => []
      | Except.ok a =>
        [UIAction.setAgent (some a), UIAction.setSession (some sel),
         UIAction.setFlag false, UIAction.clearMessages] ++
        (match record with
         | some rec =>
           match rec.runs with
           | some runs => [UIAction.populate (processRuns runs [] []).1]
           | none => []
         | none => [])
  | Event.lazyCreate sid, s =>
    if s.session_id = none then [UIAction.setSession (some sid), UIAction.setFlag false]
    else []
  | Event.live m, _ => [UIAction.appendLive m]

/-- The initial Streamlit session state: no agent, no session id, the flag
unset (a missing key reads as falsy), empty transcript. -/
def initState : AppState :=
  { agent := none, session_id := none, prevent_autoload := false, messages := [] }

/-- States reachable through the event system. -/
inductive Reachable : AppState → Prop where
  | init : Reachable initState
  | step {s : AppState} (hs : Reachable s) (e : Event) :
      Reachable (applyTraceL s (eventTrace e s))

/-- Along a trace replayed from `s`, every `populate` action fires in a
state whose autoload-suppression flag is unset. -/
def populatesOnlyWhenUnflagged : AppState → List UIAction → Prop
  | _, [] => True
  | s, a :: rest =>
    ((∃ msgs, a = UIAction.populate msgs) → s.prevent_autoload = false) ∧
    populatesOnlyWhenUnflagged (applyAction s a) rest

/-- Projection of a transcript message to its deduplication identity. -/
def msgPair (m : Message) : Option String × Option String :=
  (m.role, m.content)

/-- The (role, content) pairs of the well-formed message dicts among a
run's items, in iteration order. -/
def goodPairs : List MsgItem → List (Option String × Option String)
  | [] => []
  | MsgItem.bad :: rest => goodPairs rest
  | MsgItem.good m :: rest => (m.role, m.content) :: goodPairs rest

/-- The pairs offered by a run's multi-message branch. -/
def runPairs (r : Run) : List (Option String × Option String) :=
  match r.messages with
  | MessagesField.items ms => goodPairs ms
  | _ => []

/-- Whether a run has the multi-message shape (a `messages` key holding an
iterable). -/
def isMulti (r : Run) : Bool :=
  match r.messages with
  | MessagesField.items _ => true
  | _ => false

/-- A transcript message that passed the multi-branch skip checks: truthy
content and a role other than `system`. -/
def MsgGood (m : Message) : Prop :=
  m.content ≠ none ∧ m.content ≠ some "" ∧ m.role ≠ some "system"

/-- Two messages with different deduplication identities. -/
def MsgDistinct (a b : Message) : Prop :=
  ¬(a.role = b.role ∧ a.content = b.content)

/-- Invariant carried through the reconciliation loop: every appended
message is good, its key is recorded in `seen`, and identities are
pairwise distinct. -/
def ReconInv (seen : List String) (acc : List Message) : Prop :=
  (∀ m ∈ acc, MsgGood m) ∧
  (∀ m ∈ acc, msgKey m.role m.content ∈ seen) ∧
  acc.Pairwise MsgDistinct

/-- Example multi-message runs, containing a duplicated assistant turn. -/
def exRunsC5 : List Run :=
  [{ messages := MessagesField.items
       [MsgItem.good { role := some "user", content := some "Hi",
                       tool_calls_field := none, metricsTruthy := false },
        MsgItem.good { role := some "assistant", content := some "Hello",
                       tool_calls_field := none, metricsTruthy := false },
        MsgItem.good { role := some "assistant", content := some "Hello",
                       tool_calls_field := none, metricsTruthy := false }],
     message := MessageField.absent, content := none, tools := none }]

/-- Case-insensitive character match (re.IGNORECASE on a literal). -/
def ciEq (c : Char) : Char → Bool := fun d => d.toLower == c.toLower

/-- Character class `[A-Za-z_]`. -/
def alphaUnd (c : Char) : Bool := c.isAlpha || c == '_'

/-- Python `\w` (ASCII range, as used by these patterns). -/
def wordChar (c : Char) : Bool := c.isAlphanum || c == '_'

/-- Character class `[\w-]`. -/
def wordDash (c : Char) : Bool := wordChar c || c == '-'

/-- Python `\s`. -/
def pySpace (c : Char) : Bool :=
  c == ' ' || c == '\t' || c == '\n' || c == '\r' || c == Char.ofNat 11 || c == Char.ofNat 12

/-- Character class `[0-9.]`. -/
def digitDot (c : Char) : Bool := c.isDigit || c == '.'

/-- Character class `[^)]`. -/
def notRParen (c : Char) : Bool := !(c == ')')

/-- Regular expressions as used by `sanitize_agent_text`: character
classes, greedy `*`, `+` and `?` over classes, and sequencing. -/
inductive RE where
  | eps : RE
  | one (p : Char → Bool) : RE
  | many (p : Char → Bool) : RE
  | many1 (p : Char → Bool) : RE
  | seq (a b : RE) : RE
  | opt (a : RE) : RE

/-- Suffixes left by a greedy class star, longest consumption first (the
backtracking priority order of Python's `re`). -/
def starSfx (p : Char → Bool) : List Char → List (List Char)
  | [] => [[]]
  | c :: rest => if p c then starSfx p rest ++ [c :: rest] else [c :: rest]

/-- All suffixes remaining after a match of `r` at the head of the input,
in backtracking priority order; the head of the list is the match Python's
engine commits to. -/
def reMatch : RE → List Char → List (List Char)
  | RE.eps, s => [s]
  | RE.one _, [] => []
  | RE.one p, c :: rest => if p c then [rest] else []
  | RE.many p, s => starSfx p s
  | RE.many1 _, [] => []
  | RE.many1 p, c :: rest => if p c then starSfx p rest else []
  | RE.seq a b, s => (reMatch a s).flatMap (reMatch b)
  | RE.opt a, s => reMatch a s ++ [s]

/-- Case-insensitive literal. -/
def litCI (s : String) : RE :=
  s.data.foldr (fun c r => RE.seq (RE.one (ciEq c)) r) RE.eps

/-- `re.sub` scanning: try the pattern at each position left to right,
replace each committed match and continue after it.  Fuel bounds the
recursion; `length + 1` always suffices. -/
def subLeft : Nat → RE → List Char → List Char → List Char
  | 0, _, _, s => s
  | fuel + 1, r, repl, s =>
    match (reMatch r s).head? with
    | some s' =>
      if s'.length < s.length then repl ++ subLeft fuel r repl s'
      else
        match s with
        | [] => repl
        | c :: rest => repl ++ c :: subLeft fuel r repl rest
    | none =>
      match s with
      | [] => []
      | c :: rest => c :: subLeft fuel r repl rest

/-- `re.sub(pattern, repl, s)`. -/
def reSub (r : RE) (repl : String) (s : String) : String :=
  String.mk (subLeft (s.length + 1) r repl.data s.data)

/-- `[A-Za-z_][\w-]*`. -/
def identRE : RE := RE.seq (RE.one alphaUnd) (RE.many wordDash)

/-- The optional label `[A-Za-z_][\w-]*\s*:\s*` of `TOOL_SNIPPET`. -/
def labelPart : RE :=
  RE.seq identRE (RE.seq (RE.many pySpace) (RE.seq (RE.one (· == ':')) (RE.many pySpace)))

/-- `[A-Za-z_][\w-]*\([^)]*\)`. -/
def callPart : RE :=
  RE.seq identRE (RE.seq (RE.one (· == '(')) (RE.seq (RE.many notRParen) (RE.one (· == ')'))))

/-- `\s*completed\s+in\s+[0-9.]+s\.?` (case-insensitive), which is also
the third pattern of the sanitizer. -/
def completedTail : RE :=
  RE.seq (RE.many pySpace) (RE.seq (litCI "completed") (RE.seq (RE.many1 pySpace)
    (RE.seq (litCI "in") (RE.seq (RE.many1 pySpace) (RE.seq (RE.many1 digitDot)
      (RE.seq (RE.one (ciEq 's')) (RE.opt (RE.one (· == '.')))))))))

/-- `TOOL_SNIPPET` from `utils.py`:
`(?:[A-Za-z_][\w-]*\s*:\s*)?[A-Za-z_][\w-]*\([^)]*\)\s*completed\s+in\s+[0-9.]+s\.?`. -/
def toolSnippetRE : RE := RE.seq (RE.opt labelPart) (RE.seq callPart completedTail)

/-- `[a-zA-Z_]\w*`. -/
def ident2RE : RE := RE.seq (RE.one alphaUnd) (RE.many wordChar)

/-- The second sanitizer pattern
`:\s*[a-zA-Z_]\w*\([^)]*\)\s+completed\s+in\s+[0-9.]+s\.?`. -/
def colonCallRE : RE :=
  RE.seq (RE.one (· == ':')) (RE.seq (RE.many pySpace) (RE.seq ident2RE
    (RE.seq (RE.one (· == '(')) (RE.seq (RE.many notRParen) (RE.seq (RE.one (· == ')'))
      (RE.seq (RE.many1 pySpace) (RE.seq (litCI "completed") (RE.seq (RE.many1 pySpace)
        (RE.seq (litCI "in") (RE.seq (RE.many1 pySpace) (RE.seq (RE.many1 digitDot)
          (RE.seq (RE.one (ciEq 's')) (RE.opt (RE.one (· == '.')))))))))))))))

/-- Python `str.strip()`. -/
def pyStrip (s : String) : String :=
  String.mk (((s.data.dropWhile pySpace).reverse.dropWhile pySpace).reverse)

/-- `sanitize_agent_text` from `utils.py`: return falsy input unchanged,
remove `TOOL_SNIPPET` matches, replace colon-call snippets by `": "`,
remove dangling `completed in Xs` fragments, then strip. -/
def sanitize_agent_text (text : String) : String :=
  if text = "" then text
  else pyStrip (reSub completedTail "" (reSub colonCallRE ": " (reSub toolSnippetRE "" text)))

theorem strEqOfData {s t : String} (h : s.data = t.data) : s = t := by
  rcases s with ⟨a⟩
  rcases t with ⟨b⟩
  exact congrArg String.mk h

theorem strDataAppend (s t : String) : (s ++ t).data = s.data ++ t.data := by
  rcases s with ⟨a⟩
  rcases t with ⟨b⟩
  rfl

/-- C2: the claim fails on the code — `add_message` appends unconditionally,
so a call with `""` or `None` content changes the transcript instead of
being a no-op. -/
theorem C2_counterexample :
    add_message (some "user") (some "") none none none (some []) ≠ [] ∧
    add_message (some "user") none none none none (some []) ≠ [] ∧
    (add_message (some "user") (some "") none none none (some [])).length = 1 := by
  refine ⟨?_, ?_, rfl⟩ <;> decide

/-- C2 (amended): `add_message` itself never filters and never fails: every
call appends exactly one message, whatever the content, so the transcript
length equals the total number of calls (empty-input filtering happens at
the call sites, not in `add_message`). -/
theorem C2_append_always_appends (calls : List CallArgs) (st : List Message) :
    (applyCalls calls st).length = st.length + calls.length := by
  induction calls generalizing st with
  | nil => simp [applyCalls]
  | cons c cs ih =>
    rw [applyCalls, ih]
    simp [add_message]
    omega

/-- C7: the claim fails on the code — on an initialised empty transcript the
export is the fixed heading, which is not empty text. -/
theorem C7_counterexample : exportChatHistory (some []) ≠ "" := by
  decide

/-- C7 (amended): `export_chat_history` on an empty transcript never raises
and returns header-only text: the fixed heading when the messages list
exists and is empty, and `""` when the session-state key is absent. -/
theorem C7_export_empty :
    exportChatHistory (some []) = "# Finance Agent - Chat History\n\n" ∧
    exportChatHistory none = "" :=
  ⟨rfl, rfl⟩

/-- C9: `export_chat_history` uses the `🤖 Assistant` heading exactly for
the literal role `"agent"`, while a message appended with role
`"assistant"` (the role the app actually uses for assistant turns) is
rendered under the `👤 User` heading. -/
theorem C9_assistant_rendered_as_user :
    (∀ r : Option String, roleLabel r = "🤖 Assistant" ↔ r = some "agent") ∧
    (∀ text : String,
      exportChatHistory (some (appendAssistant text none (some []))) =
        "# Finance Agent - Chat History\n\n" ++ ("### 👤 User\n" ++ (text ++ "\n\n"))) := by
  constructor
  · intro r
    constructor
    · intro h
      by_contra hne
      rw [roleLabel, if_neg hne] at h
      exact absurd h (by decide)
    · intro h
      rw [roleLabel, if_pos h]
  · intro text
    have h1 : exportChatHistory (some (appendAssistant text none (some []))) =
        "# Finance Agent - Chat History\n\n" ++
          ("### " ++ "👤 User" ++ "\n" ++ text ++ "\n\n" ++ "") := by
      simp [exportChatHistory, appendAssistant, add_message, renderMessage, roleLabel,
        pyStr, toolsSection]
    rw [h1]
    apply strEqOfData
    simp [strDataAppend, List.append_assoc]

theorem processItems_ok_of_noBad (rtools : Option (List ToolCall)) :
    ∀ (ms : List MsgItem) (seen : List String) (acc : List Message),
      (∀ it ∈ ms, it ≠ MsgItem.bad) →
      ∃ p, processItems rtools ms seen acc = Except.ok p := by
  intro ms
  induction ms with
  | nil => exact fun seen acc _ => ⟨(seen, acc), rfl⟩
  | cons it rest ih =>
    intro seen acc h
    have hrest : ∀ x ∈ rest, x ≠ MsgItem.bad :=
      fun x hx => h x (List.mem_cons_of_mem _ hx)
    cases it with
    | bad => exact absurd rfl (h MsgItem.bad (List.mem_cons_self _ _))
    | good m =>
      simp only [processItems]
      split
      · exact ih seen acc hrest
      · split
        · exact ih seen acc hrest
        · exact ih _ _ hrest

theorem processRun_ok_of_not_raises (r : Run) (h : runRaises r = false)
    (seen : List String) (acc : List Message) :
    ∃ p, processRun r seen acc = Except.ok p := by
  rcases r with ⟨mf, msgf, c, tools⟩
  cases mf with
  | absent =>
    cases msgf with
    | dictContent v => exact ⟨_, rfl⟩
    | absent => exact ⟨_, rfl⟩
    | notDict => exact ⟨_, rfl⟩
    | dictNoContent => exact ⟨_, rfl⟩
  | notIterable => simp [runRaises] at h
  | items ms =>
    apply processItems_ok_of_noBad
    intro it hit hbad
    subst hbad
    simp only [runRaises, List.any_eq_false] at h
    have := h MsgItem.bad hit
    simp at this

theorem processRunsAux_append (l1 l2 : List Run) :
    ∀ (seen : List String) (acc : List Message),
      (∀ r ∈ l1, runRaises r = false) →
      processRunsAux (l1 ++ l2) seen acc =
        processRunsAux l2 (processRunsAux l1 seen acc).1 (processRunsAux l1 seen acc).2.1 := by
  induction l1 with
  | nil => exact fun seen acc _ => rfl
  | cons r rs ih =>
    intro seen acc h
    obtain ⟨⟨seen', acc'⟩, hp⟩ :=
      processRun_ok_of_not_raises r (h r (List.mem_cons_self _ _)) seen acc
    rw [List.cons_append]
    simp only [processRunsAux, hp]
    exact ih seen' acc' (fun x hx => h x (List.mem_cons_of_mem _ hx))

/-- C1: the claim fails on the code — the `try` block wraps the whole loop
over runs, so a malformed run aborts the remaining runs: with a valid run
before and after a malformed one, the reconciled transcript contains only
the first valid run's message and misses the one after. -/
theorem C1_counterexample :
    processRuns [exRun1, exRunBad, exRun2] [] [] =
      ([{ role := some "user", content := some "hi", tool_calls := none,
          image := none, audio_bytes := none }], true) ∧
    ({ role := some "user", content := some "yo", tool_calls := none,
       image := none, audio_bytes := none } : Message) ∉
      (processRuns [exRun1, exRunBad, exRun2] [] []).1 := by
  decide

/-- C1 (amended): a failure while iterating a malformed run is caught by
the handler around the whole switch (no exception escapes) and the
messages of the runs processed before it remain, but reconciliation aborts
there: the runs after the malformed one are skipped, whatever they are. -/
theorem C1_reconcile_aborts_at_malformed (pre rest : List Run) (bad : Run)
    (h1 : ∀ r ∈ pre, runRaises r = false)
    (h2 : bad.messages = MessagesField.notIterable) :
    processRuns (pre ++ bad :: rest) [] [] = ((processRuns pre [] []).1, true) := by
  have hb : ∀ (seen : List String) (acc : List Message),
      processRun bad seen acc = Except.error acc := by
    intro seen acc
    simp [processRun, h2]
  unfold processRuns
  rw [processRunsAux_append pre (bad :: rest) [] [] h1]
  simp [processRunsAux, hb]

theorem C1_witness :
    ((∀ r ∈ [exRun1], runRaises r = false) ∧
      exRunBad.messages = MessagesField.notIterable) ∧
    processRuns ([exRun1] ++ exRunBad :: [exRun2]) [] [] =
      ((processRuns [exRun1] [] []).1, true) :=
  ⟨⟨by decide, rfl⟩,
   C1_reconcile_aborts_at_malformed [exRun1] [exRun2] exRunBad (by decide) rfl⟩

/-- C4: reconciliation is idempotent — it discards the previous transcript
and rebuilds from the record with a fresh deduplication set, so a second
invocation in succession yields the same transcript contents. -/
theorem C4_reconcile_idempotent (rec : SessionRecord) (transcript : List Message) :
    reconcileFromSession rec (reconcileFromSession rec transcript) =
      reconcileFromSession rec transcript := rfl

/-- C10: a single-turn-shaped run (no `messages` key) whose `message` field
is absent, not a dict, or lacks a `content` key contributes nothing at all:
the top-level `content`, even when non-empty, is only reached inside the
branch guarded by the `message`-field condition. -/
theorem C10_single_run_message_guard (mf : MessageField) (c : Option String)
    (tools : Option (List ToolCall)) (seen : List String) (acc : List Message)
    (h : ∀ v, mf ≠ MessageField.dictContent v) :
    processRun { messages := MessagesField.absent, message := mf,
                 content := c, tools := tools } seen acc = Except.ok (seen, acc) := by
  cases mf with
  | dictContent v => exact absurd rfl (h v)
  | absent => rfl
  | notDict => rfl
  | dictNoContent => rfl

theorem C10_witness :
    (∀ v, MessageField.notDict ≠ MessageField.dictContent v) ∧
    processRun { messages := MessagesField.absent, message := MessageField.notDict,
                 content := some "hello", tools := none } ["k"] [] =
      Except.ok (["k"], []) :=
  ⟨(fun _ h => nomatch h),
   C10_single_run_message_guard MessageField.notDict (some "hello") none ["k"] []
     (fun _ h => nomatch h)⟩

/-- C3: the claim fails on the code — when the failure happens after the
state assignments (here: a malformed run raising during reconciliation),
the error is caught and surfaced, but the new agent, the new session id,
the cleared autoload flag and a partially built (here: emptied) transcript
are left committed, not rolled back. -/
theorem C3_counterexample :
    selectSession
        { agent := some 1, session_id := some "old", prevent_autoload := true,
          messages := [{ role := some "user", content := some "m", tool_calls := none,
                         image := none, audio_bytes := none }] }
        "new" (Except.ok 2) (some { runs := some [exRunBad] }) =
      ({ agent := some 2, session_id := some "new", prevent_autoload := false,
         messages := [] }, true) ∧
    ({ agent := some 2, session_id := some "new", prevent_autoload := false,
       messages := [] } : AppState) ≠
      { agent := some 1, session_id := some "old", prevent_autoload := true,
        messages := [{ role := some "user", content := some "m", tool_calls := none,
                       image := none, audio_bytes := none }] } := by
  decide

/-- C3 (amended): only a failure in agent construction rolls back — the
state is then exactly as before the call and the error is surfaced; once
construction succeeds, the new agent, session id and cleared autoload flag
are committed even when a later reconciliation step raises (the raise is
still caught and surfaced as the error flag). -/
theorem C3_rollback_only_before_commit :
    (∀ (st : AppState) (sel : String) (rec : Option SessionRecord),
      st.session_id ≠ some sel →
      selectSession st sel (Except.error ()) rec = (st, true)) ∧
    (∀ (st : AppState) (sel : String) (a : Nat) (rec : Option SessionRecord),
      st.session_id ≠ some sel →
      (selectSession st sel (Except.ok a) rec).1.session_id = some sel ∧
      (selectSession st sel (Except.ok a) rec).1.agent = some a ∧
      (selectSession st sel (Except.ok a) rec).1.prevent_autoload = false) := by
  constructor
  · intro st sel rec h
    simp [selectSession, h]
  · intro st sel a rec h
    rcases rec with _ | ⟨runs⟩
    · simp [selectSession, h]
    · rcases runs with _ | ⟨rs⟩ <;> simp [selectSession, h]

theorem C3_witness :
    ((none : Option String) ≠ some "s") ∧
    selectSession { agent := none, session_id := none, prevent_autoload := false,
                    messages := [] } "s" (Except.error ()) none =
      ({ agent := none, session_id := none, prevent_autoload := false,
         messages := [] }, true) ∧
    (selectSession { agent := none, session_id := none, prevent_autoload := false,
                     messages := [] } "s" (Except.ok 7) none).1.session_id = some "s" :=
  ⟨(by decide),
   C3_rollback_only_before_commit.1
     { agent := none, session_id := none, prevent_autoload := false, messages := [] }
     "s" none (by decide),
   (C3_rollback_only_before_commit.2
     { agent := none, session_id := none, prevent_autoload := false, messages := [] }
     "s" 7 none (by decide)).1⟩

/-- C8: autoload-flag discipline — an explicit reset sets the flag, lazy
session creation and session selection clear it, and from every reachable
state each event's trace copies persisted runs into the transcript (a
`populate` action) only while the flag is unset. -/
theorem C8_autoload_flag_discipline :
    (∀ s : AppState,
      (applyTraceL s (eventTrace Event.reset s)).prevent_autoload = true) ∧
    (∀ (s : AppState) (sid : String), s.session_id = none →
      (applyTraceL s (eventTrace (Event.lazyCreate sid) s)).prevent_autoload = false) ∧
    (∀ (s : AppState) (sel : String) (a : Nat) (rec : Option SessionRecord),
      s.session_id ≠ some sel →
      (applyTraceL s
        (eventTrace (Event.select sel (Except.ok a) rec) s)).prevent_autoload = false) ∧
    (∀ s : AppState, Reachable s → ∀ e : Event,
      populatesOnlyWhenUnflagged s (eventTrace e s)) := by
  refine ⟨?_, ?_, ?_, ?_⟩
  · intro s; rfl
  · intro s sid h
    simp [eventTrace, h, applyTraceL, applyAction]
  · intro s sel a rec h
    rcases rec with _ | ⟨runs⟩
    · simp [eventTrace, h, applyTraceL, applyAction]
    · rcases runs with _ | ⟨rs⟩ <;> simp [eventTrace, h, applyTraceL, applyAction]
  · intro s _ e
    cases e with
    | reset => simp [eventTrace, populatesOnlyWhenUnflagged]
    | live m => simp [eventTrace, populatesOnlyWhenUnflagged]
    | lazyCreate sid =>
      by_cases h : s.session_id = none <;>
        simp [eventTrace, h, populatesOnlyWhenUnflagged]
    | render u memRuns =>
      simp only [eventTrace]
      split <;> split <;> simp_all [populatesOnlyWhenUnflagged]
    | select sel ctor record =>
      by_cases h : s.session_id = some sel
      · simp [eventTrace, h, populatesOnlyWhenUnflagged]
      · cases ctor with
        | error e => simp [eventTrace, h, populatesOnlyWhenUnflagged]
        | ok a =>
          rcases record with _ | ⟨runs⟩
          · simp [eventTrace, h, populatesOnlyWhenUnflagged, applyAction]
          · rcases runs with _ | ⟨rs⟩ <;>
              simp [eventTrace, h, populatesOnlyWhenUnflagged, applyAction]

theorem C8_witness :
    (applyTraceL initState (eventTrace Event.reset initState)).prevent_autoload = true ∧
    (applyTraceL initState
      (eventTrace (Event.lazyCreate "s1") initState)).prevent_autoload = false ∧
    (applyTraceL initState
      (eventTrace (Event.select "s2" (Except.ok 1) none) initState)).prevent_autoload
        = false ∧
    populatesOnlyWhenUnflagged initState
      (eventTrace (Event.render true (some [])) initState) :=
  ⟨C8_autoload_flag_discipline.1 initState,
   C8_autoload_flag_discipline.2.1 initState "s1" rfl,
   C8_autoload_flag_discipline.2.2.1 initState "s2" 1 none (by decide),
   C8_autoload_flag_discipline.2.2.2 initState Reachable.init
     (Event.render true (some []))⟩

theorem processItems_inv (rtools : Option (List ToolCall)) :
    ∀ (ms : List MsgItem) (seen : List String) (acc : List Message),
      ReconInv seen acc →
      (match processItems rtools ms seen acc with
       | Except.ok (seen', acc') =>
         ReconInv seen' acc' ∧ (∀ k ∈ seen, k ∈ seen') ∧
         ∃ d, acc' = acc ++ d ∧ List.Sublist (d.map msgPair) (goodPairs ms)
       | Except.error acc' =>
         (∃ seen', ReconInv seen' acc') ∧
         ∃ d, acc' = acc ++ d ∧ List.Sublist (d.map msgPair) (goodPairs ms)) := by
  intro ms
  induction ms with
  | nil =>
    intro seen acc h
    exact ⟨h, fun k hk => hk, [], by simp, List.nil_sublist _⟩
  | cons it rest ih =>
    intro seen acc h
    cases it with
    | bad =>
      exact ⟨⟨seen, h⟩, [], by simp, List.nil_sublist _⟩
    | good m =>
      simp only [processItems]
      by_cases hskip : m.content = none ∨ m.content = some "" ∨ m.role = some "system"
      · rw [if_pos hskip]
        have hres0 := ih seen acc h
        revert hres0
        cases hres : processItems rtools rest seen acc with
        | ok p =>
          rcases p with ⟨seen', acc'⟩
          intro hres0
          obtain ⟨hinv, hsub, d, hd, hsl⟩ := hres0
          exact ⟨hinv, hsub, d, hd, hsl.cons _⟩
        | error acc' =>
          intro hres0
          obtain ⟨hex, d, hd, hsl⟩ := hres0
          exact ⟨hex, d, hd, hsl.cons _⟩
      · rw [if_neg hskip]
        by_cases hkey : msgKey m.role m.content ∈ seen
        · rw [if_pos hkey]
          have hres0 := ih seen acc h
          revert hres0
          cases hres : processItems rtools rest seen acc with
          | ok p =>
            rcases p with ⟨seen', acc'⟩
            intro hres0
            obtain ⟨hinv, hsub, d, hd, hsl⟩ := hres0
            exact ⟨hinv, hsub, d, hd, hsl.cons _⟩
          | error acc' =>
            intro hres0
            obtain ⟨hex, d, hd, hsl⟩ := hres0
            exact ⟨hex, d, hd, hsl.cons _⟩
        · rw [if_neg hkey]
          push_neg at hskip
          obtain ⟨hc1, hc2, hr⟩ := hskip
          have hadd : add_message m.role m.content
              (if m.role = some "assistant" then mkToolCalls rtools m else none)
              none none (some acc) =
              acc ++ [{ role := m.role, content := m.content,
                        tool_calls := (if m.role = some "assistant"
                                       then mkToolCalls rtools m else none),
                        image := none, audio_bytes := none }] := by
            simp [add_message]
          rw [hadd]
          have hinv2 : ReconInv (msgKey m.role m.content :: seen)
              (acc ++ [{ role := m.role, content := m.content,
                         tool_calls := (if m.role = some "assistant"
                                        then mkToolCalls rtools m else none),
                         image := none, audio_bytes := none }]) := by
            refine ⟨?_, ?_, ?_⟩
            · intro x hx
              rcases List.mem_append.mp hx with hx | hx
              · exact h.1 x hx
              · rw [List.mem_singleton.mp hx]
                exact ⟨hc1, hc2, hr⟩
            · intro x hx
              rcases List.mem_append.mp hx with hx | hx
              · exact List.mem_cons_of_mem _ (h.2.1 x hx)
              · rw [List.mem_singleton.mp hx]
                exact List.mem_cons_self _ _
            · rw [List.pairwise_append]
              refine ⟨h.2.2, by simp [MsgDistinct], ?_⟩
              intro a ha b hb
              rw [List.mem_singleton.mp hb]
              intro hab
              apply hkey
              have hkeyin := h.2.1 a ha
              rw [show a.role = m.role from hab.1, show a.content = m.content from hab.2]
                at hkeyin
              exact hkeyin
          have hres0 := ih (msgKey m.role m.content :: seen) _ hinv2
          revert hres0
          cases hres : processItems rtools rest (msgKey m.role m.content :: seen)
              (acc ++ [{ role := m.role, content := m.content,
                         tool_calls := (if m.role = some "assistant"
                                        then mkToolCalls rtools m else none),
                         image := none, audio_bytes := none }]) with
          | ok p =>
            rcases p with ⟨seen', acc'⟩
            intro hres0
            obtain ⟨hinv', hsub, d, hd, hsl⟩ := hres0
            refine ⟨hinv', fun k hk => hsub k (List.mem_cons_of_mem _ hk),
              { role := m.role, content := m.content,
                 tool_calls := (if m.role = some "assistant"
                                then mkToolCalls rtools m else none),
                 image := none, audio_bytes := none } :: d, ?_, ?_⟩
            · rw [hd, List.append_assoc]
              rfl
            · simp only [List.map_cons, goodPairs, msgPair]
              exact List.Sublist.cons₂ _ hsl
          | error acc' =>
            intro hres0
            obtain ⟨hex, d, hd, hsl⟩ := hres0
            refine ⟨hex,
              { role := m.role, content := m.content,
                 tool_calls := (if m.role = some "assistant"
                                then mkToolCalls rtools m else none),
                 image := none, audio_bytes := none } :: d, ?_, ?_⟩
            · rw [hd, List.append_assoc]
              rfl
            · simp only [List.map_cons, goodPairs, msgPair]
              exact List.Sublist.cons₂ _ hsl

theorem processRunsAux_inv :
    ∀ (runs : List Run) (seen : List String) (acc : List Message),
      (∀ r ∈ runs, isMulti r = true) → ReconInv seen acc →
      (∀ m ∈ (processRunsAux runs seen acc).2.1, MsgGood m) ∧
      (processRunsAux runs seen acc).2.1.Pairwise MsgDistinct ∧
      ∃ d, (processRunsAux runs seen acc).2.1 = acc ++ d ∧
        List.Sublist (d.map msgPair) ((runs.map runPairs).flatten) := by
  intro runs
  induction runs with
  | nil =>
    intro seen acc _ h
    exact ⟨h.1, h.2.2, [], by simp [processRunsAux], List.nil_sublist _⟩
  | cons r rs ih =>
    intro seen acc hm h
    have hr : isMulti r = true := hm r (List.mem_cons_self _ _)
    have hrs : ∀ x ∈ rs, isMulti x = true :=
      fun x hx => hm x (List.mem_cons_of_mem _ hx)
    rcases hms : r.messages with _ | ⟨ms⟩ | _
    · simp [isMulti, hms] at hr
    · have hpr : processRun r seen acc = processItems r.tools ms seen acc := by
        simp [processRun, hms]
      have hflat : (((r :: rs).map runPairs).flatten) =
          goodPairs ms ++ ((rs.map runPairs).flatten) := by
        simp [runPairs, hms]
      have hspec := processItems_inv r.tools ms seen acc h
      simp only [processRunsAux, hpr]
      revert hspec
      cases hres : processItems r.tools ms seen acc with
      | ok p =>
        rcases p with ⟨seen', acc'⟩
        intro hspec
        obtain ⟨hinv', _, d, hd, hsl⟩ := hspec
        obtain ⟨hg, hpw, d2, hd2, hsl2⟩ := ih seen' acc' hrs hinv'
        refine ⟨hg, hpw, d ++ d2, ?_, ?_⟩
        · rw [hd2, hd, List.append_assoc]
        · rw [List.map_append, hflat]
          exact List.Sublist.append hsl hsl2
      | error acc' =>
        intro hspec
        obtain ⟨⟨seen'', hinv''⟩, d, hd, hsl⟩ := hspec
        refine ⟨hinv''.1, hinv''.2.2, d, hd, ?_⟩
        rw [hflat]
        exact hsl.trans (List.sublist_append_left _ _)
    · simp [isMulti, hms] at hr

/-- C5: after reconciling multi-message-shaped runs, no transcript message
has empty content, none has role `system`, no two share the same
`(role, content)` identity, and the messages appear in iteration order —
their identity projection is a sublist of the runs' message pairs. -/
theorem C5_multi_reconcile_invariants (runs : List Run)
    (h : ∀ r ∈ runs, isMulti r = true) :
    (∀ m ∈ (processRuns runs [] []).1, MsgGood m) ∧
    (processRuns runs [] []).1.Pairwise MsgDistinct ∧
    List.Sublist ((processRuns runs [] []).1.map msgPair)
      ((runs.map runPairs).flatten) := by
  obtain ⟨hg, hpw, d, hd, hsl⟩ :=
    processRunsAux_inv runs [] [] h ⟨by simp, by simp, List.Pairwise.nil⟩
  refine ⟨hg, hpw, ?_⟩
  show List.Sublist (((processRunsAux runs [] []).2.1).map msgPair) _
  rw [hd]
  simpa using hsl

theorem C5_witness :
    (∀ r ∈ exRunsC5, isMulti r = true) ∧
    ((∀ m ∈ (processRuns exRunsC5 [] []).1, MsgGood m) ∧
     (processRuns exRunsC5 [] []).1.Pairwise MsgDistinct ∧
     List.Sublist ((processRuns exRunsC5 [] []).1.map msgPair)
       ((exRunsC5.map runPairs).flatten)) :=
  ⟨by decide, C5_multi_reconcile_invariants exRunsC5 (by decide)⟩

/-- C6: the claim fails on the code — on this exact input the whole string
matches `TOOL_SNIPPET` (its optional leading label matches `"Result: "`),
so the sanitizer returns `""`, not `"Result:"`. -/
theorem C6_counterexample :
    sanitize_agent_text "Result: get_price(symbol=AAPL) completed in 0.42s." ≠ "Result:" := by
  decide

/-- C6 (amended): `sanitize_agent_text` applied to the exact input
`"Result: get_price(symbol=AAPL) completed in 0.42s."` returns the empty
string: the optional `label:` part of the tool-snippet pattern consumes
the leading `"Result: "`, so the entire string is removed. -/
theorem C6_sanitize_removes_whole_string :
    sanitize_agent_text "Result: get_price(symbol=AAPL) completed in 0.42s." = "" := by
  decide
